import Mathlib

/-!
Verification of the go-source RCON client (package `source`).

Shallow embedding of the repository's Go code:
* the packet codec `pkt.WriteTo` / `pkt.ReadFrom` (file with constants and
  `pkt`, `newPkt`),
* the client layer `Client.auth`, `Client.readSingle`, `Client.readMulti`,
  `Client.writePkt`, `Client.writeMulti`, `Client.ExecCmd`, `Client.Exec`,
* the command model `Cmd`, `NewCmd`, `WithArgs`, `Cmd.String`.

Go `int32` values are modelled as `Int` together with explicit reduction
modulo 2^32 (`toInt32`) exactly where the Go code truncates or wraps.
Byte streams are modelled as `List Nat` (each element one byte); the
blocking reader of the Go code (`io.Reader` over the connection) is
modelled by: a read of `k` bytes from stream `bs` yields `bs.take k` and
leaves `bs.drop k`; an empty stream reports EOF.
-/

namespace Source

set_option autoImplicit false
set_option maxHeartbeats 1000000
set_option linter.unusedVariables false

/-- Decidable equality for `Except`, so that concrete runs of the embedded
code can be checked with `decide`. -/
instance instDecEqExcept {ε α : Type} [DecidableEq ε] [DecidableEq α] :
    DecidableEq (Except ε α) := fun x y =>
  match x, y with
  | .ok a, .ok b =>
    if h : a = b then isTrue (h ▸ rfl) else isFalse (fun he => h (Except.ok.inj he))
  | .error a, .error b =>
    if h : a = b then isTrue (h ▸ rfl) else isFalse (fun he => h (Except.error.inj he))
  | .ok a, .error b => isFalse (fun he => Except.noConfusion he)
  | .error a, .ok b => isFalse (fun he => Except.noConfusion he)

/-- Go: `responseValue = int32(0)`, the packet type returned in response to
an execCommand. -/
def responseValue : Int := 0

/-- Go: `execCommand = int32(2)`, the packet type for a command issued to
the server by the client. -/
def execCommand : Int := 2

/-- Go: `auth = int32(3)`, the packet type used to authenticate. -/
def auth : Int := 3

/-- Go: `authResponse = int32(2)`, the packet type representing the
connection's current auth status. -/
def authResponse : Int := 2

/-- Go: `responseBody = []byte{0x00, 0x01, 0x00, 0x00}`, the expected
response body for the second sentinel reply in multi-packet mode. -/
def responseBody : List Nat := [0x00, 0x01, 0x00, 0x00]

/-- Truncation of an integer to Go `int32` (two's complement wrap-around),
used where Go converts or overflows an `int32`. -/
def toInt32 (v : Int) : Int :=
  let u := v % 4294967296
  if u < 2147483648 then u else u - 4294967296

/-- Little-endian encoding of an `int32` value as 4 bytes, as produced by
Go's `binary.Write(buf, binary.LittleEndian, v)`. -/
def le4 (v : Int) : List Nat :=
  let u := (v % 4294967296).toNat
  [u % 256, u / 256 % 256, u / 65536 % 256, u / 16777216 % 256]

/-- Little-endian decoding of 4 bytes into an `int32` value, as performed by
Go's `binary.Read(r, binary.LittleEndian, &x)` for an `int32` field.  Each
byte is a value `< 256` on the wire, enforced here by `% 256`. -/
def int32OfLE (bs : List Nat) : Int :=
  let u := bs.getD 0 0 % 256 + 256 * (bs.getD 1 0 % 256) +
    65536 * (bs.getD 2 0 % 256) + 16777216 * (bs.getD 3 0 % 256)
  if u < 2147483648 then (u : Int) else (u : Int) - 4294967296

/-- Go: `pkt` represents an rcon packet.  The Go field `Type` is spelled
`Ty` here because `Type` is reserved in Lean. -/
structure pkt where
  Size : Int
  ID : Int
  Ty : Int
  body : List Nat
deriving DecidableEq

/-- Go: `newPkt(t, id, body)` sets `Size = int32(len(body) + 10)`. -/
def newPkt (t id : Int) (body : List Nat) : pkt :=
  { Ty := t, Size := toInt32 ((body.length : Int) + 10), ID := id, body := body }

/-- Errors surfaced while decoding a packet: `transport` stands for an error
of the underlying reader (EOF and friends), `malformed` for the Go
`ErrMalformedResponse(reason)`. -/
inductive DecodeErr where
  | transport
  | malformed (reason : String)
deriving DecidableEq

/-- Go: `pkt.WriteTo` — emits, little-endian, `Size`, `ID`, `Type`, then the
body bytes followed by the two `0x00` terminator bytes.  Writing to the
in-memory buffer cannot fail, so the result is the plain byte sequence. -/
def pkt.WriteTo (p : pkt) : List Nat :=
  le4 p.Size ++ le4 p.ID ++ le4 p.Ty ++ p.body ++ [0x00, 0x00]

/-- Behaviour of Go's `io.ReadFull` (used by `binary.Read` for each header
field) over the byte-list reader: one read returns `min k (bs.length)`
bytes, so `ReadFull` succeeds iff `k` bytes are available; a short stream
reports the read error (EOF / ErrUnexpectedEOF) of the underlying reader. -/
def readFull (k : Nat) (bs : List Nat) : Except DecodeErr (List Nat × List Nat) :=
  if k = 0 then .ok ([], bs)
  else if bs.isEmpty then .error .transport
  else if k ≤ bs.length then .ok (bs.take k, bs.drop k)
  else .error .transport

/-- The payload loop of `pkt.ReadFrom`:

    var i int32
    p.body = make([]byte, p.Size-8)
    for i < p.Size-8 {
        n2, err2 := r.Read(p.body[i:])
        if err != nil {
            return n + int64(n2) + int64(i), err2
        }
        i += int32(n2)
    }

`got` plays the role of `p.body[:i]` (so `got.length` is `i`).  Note the Go
code tests the stale outer variable `err` — which is necessarily `nil` at
this point, since the preceding `binary.Read` succeeded — instead of `err2`,
so the error of `r.Read` is discarded and the loop keeps running; this is
why no error branch appears in the loop body here.  `fuel` bounds the number
of iterations; `none` means the loop is still running after `fuel`
iterations (the Go loop never exits on its own when the stream has dried
up). -/
def payloadLoop (need : Nat) : Nat → List Nat → List Nat → Option (List Nat × List Nat)
  | fuel, got, bs =>
    if got.length < need then
      match fuel with
      | 0 => none
      | Nat.succ f =>
        payloadLoop need f (got ++ bs.take (need - got.length)) (bs.drop (need - got.length))
    else some (got, bs)

/-- Go: `pkt.ReadFrom` — reads `Size`, rejects `Size < 10`, reads `ID` and
`Type`, then runs the payload loop for `Size - 8` bytes, checks that the
final two raw bytes are `0x00 0x00` and strips them.  `none` means the
payload loop is still spinning after `fuel` iterations. -/
def pkt.ReadFrom (fuel : Nat) (bs : List Nat) : Option (Except DecodeErr pkt) :=
  match readFull 4 bs with
  | .error e => some (.error e)
  | .ok (szb, bs1) =>
    let size := int32OfLE szb
    if size < 10 then some (.error (.malformed "size too small"))
    else
      match readFull 4 bs1 with
      | .error e => some (.error e)
      | .ok (idb, bs2) =>
        match readFull 4 bs2 with
        | .error e => some (.error e)
        | .ok (tyb, bs3) =>
          match payloadLoop (size - 8).toNat fuel [] bs3 with
          | none => none
          | some (raw, _) =>
            if raw.drop (raw.length - 2) = [0x00, 0x00] then
              some (.ok { Size := size, ID := int32OfLE idb, Ty := int32OfLE tyb,
                          body := raw.take (raw.length - 2) })
            else some (.error (.malformed "invalid trailer"))

/-! ## Command model (`cmd.go`) -/

/-- Go: `Cmd` represents a source rcon command.  The Go `args` field is a
heterogeneous `[]interface\x7b\x7d` printed with the `%v` verb; it is
modelled by the list of the arguments' `%v` renderings (for the `string`
arguments used by the client and its tests, `%v` is the identity). -/
structure Cmd where
  cmd : String
  args : List String
deriving DecidableEq

/-- Go: `NewCmd(cmd)`. -/
def NewCmd (cmd : String) : Cmd := { cmd := cmd, args := [] }

/-- Go: `Cmd.WithArgs(args...)`. -/
def Cmd.WithArgs (c : Cmd) (args : List String) : Cmd := { c with args := args }

/-- Space-joining of `fmt.Sprintln`: its operands are always separated by
single spaces (character-level model). -/
def sepJoin : List (List Char) → List Char
  | [] => []
  | [w] => w
  | w :: v :: ws => w ++ ' ' :: sepJoin (v :: ws)

/-- Go: `fmt.Sprintln(args...)` — operands space-separated, newline
appended. -/
def sprintln (ws : List (List Char)) : List Char :=
  sepJoin ws ++ ['\n']

/-- Go: `strings.TrimSuffix(s, suf)` — removes `suf` once if `s` ends with
it, otherwise returns `s` unchanged (character-level model). -/
def trimSuffix (xs suf : List Char) : List Char :=
  if suf.isSuffixOf xs then xs.take (xs.length - suf.length) else xs

/-- Go: `Cmd.String()` — `strings.TrimSuffix(fmt.Sprintln(args...), "\n")`
where `args` is the verb followed by the argument values. -/
def Cmd.String (c : Cmd) : String :=
  ⟨trimSuffix (sprintln ((c.cmd :: c.args).map String.data)) ['\n']⟩

/-! ## Client layer -/

/-- Errors surfaced by the client layer: `transport` stands for errors of
the connection (including a failed `readPkt`), the rest mirror the package's
error values `ErrMalformedResponse`, `ErrAuthFailure`, `ErrNonASCII`. -/
inductive CErr where
  | transport
  | malformed (reason : String)
  | authFailure
  | nonASCII
deriving DecidableEq

/-- Bytes of a Go string (`[]byte(s)` is UTF-8; identical to the code-point
list for the ASCII strings the client transmits — non-ASCII command bodies
are rejected before this conversion is reached). -/
def bytesOfString (s : String) : List Nat :=
  s.data.map Char.toNat

/-- The client's mutable session state: the request-id counter (`c.reqID`,
a Go `int32`). -/
structure ClientState where
  reqID : Int
deriving DecidableEq

/-- The read/write mode fixed at construction: `multi` is the default
(`readMulti`/`writeMulti`), `single` is selected by `DisableMultiPacket`
(`readSingle`/`writePkt`). -/
inductive Mode where
  | multi
  | single
deriving DecidableEq

/-- Go: `Client.auth` — authenticates against the decoded response packets
if a password is set, otherwise a no-op.  The function consumes one or two
packets from the front of `pkts` (the sending of the auth packet itself is
not modelled; the claims are about the decoded response sequence). -/
def Client.auth (pwd : String) (pkts : List pkt) : Except CErr Unit :=
  if pwd = "" then .ok ()
  else
    match pkts with
    | [] => .error .transport
    | p :: rest =>
      if p.ID ≠ 0 then .error .authFailure
      else if p.Ty = responseValue then
        -- the official flow: a responseValue echo, then the auth result
        match rest with
        | [] => .error .transport
        | q :: _ =>
          if q.ID ≠ 0 ∨ q.Ty ≠ authResponse then .error .authFailure
          else .ok ()
      else if p.Ty ≠ authResponse then .error .authFailure
      else .ok ()

/-- Go: `Client.readSingle` — reads a single packet, validates its ID
matches `expectedID` and returns its body.  The second component is the
input minus the consumed packet. -/
def Client.readSingle (expectedID : Int) :
    List pkt → Except CErr (List Nat) × List pkt
  | [] => (.error .transport, [])
  | p :: rest =>
    (if p.ID ≠ expectedID then
       .error (.malformed ("unexpected packet id " ++ toString p.ID))
     else .ok p.body, rest)

/-- The loop of `Client.readMulti`, with the accumulation buffer `buf` and
the sentinel counter `cnt` explicit.  In the Go `switch cnt` a value other
than 1 or 2 matches no case, so the loop just continues. -/
def Client.readMultiAux (expectedID : Int) (buf : List Nat) (cnt : Nat) :
    List pkt → Except CErr (List Nat) × List pkt
  | [] => (.error .transport, [])
  | p :: rest =>
    if p.Ty ≠ responseValue then (.error (.malformed "unexpected type"), rest)
    else if p.ID = expectedID then
      Client.readMultiAux expectedID (buf ++ p.body) cnt rest
    else if p.ID = expectedID + 1 then
      if cnt + 1 = 1 then
        if p.body ≠ [] then (.error (.malformed "non-empty body"), rest)
        else Client.readMultiAux expectedID buf (cnt + 1) rest
      else if cnt + 1 = 2 then
        if p.body ≠ responseBody then
          -- Go quotes the offending body with %q in the reason string
          (.error (.malformed "unexpected body"), rest)
        else (.ok buf, rest)
      else Client.readMultiAux expectedID buf (cnt + 1) rest
    else (.error (.malformed ("unexpected packet id " ++ toString p.ID)), rest)

/-- Go: `Client.readMulti` — reads response packets, combines multi-packet
response bodies and returns the result together with the unread rest. -/
def Client.readMulti (expectedID : Int) (pkts : List pkt) :
    Except CErr (List Nat) × List pkt :=
  Client.readMultiAux expectedID [] 0 pkts

/-- Go: `Client.writePkt` — writes a single packet with the current id and
increments the id counter (`int32` wrap-around made explicit). -/
def Client.writePkt (st : ClientState) (pktType : Int) (body : List Nat) :
    pkt × ClientState :=
  (newPkt pktType st.reqID body, { reqID := toInt32 (st.reqID + 1) })

/-- Go: `Client.writeMulti` — writes the command packet, then an empty-body
`responseValue` packet (the sentinel), advancing the counter twice. -/
def Client.writeMulti (st : ClientState) (pktType : Int) (body : List Nat) :
    List pkt × ClientState :=
  let r1 := Client.writePkt st pktType body
  let r2 := Client.writePkt r1.2 responseValue []
  ([r1.1, r2.1], r2.2)

/-- Go: `Client.ExecCmd` — renders the command, rejects non-ASCII bodies
before writing anything, then writes via the mode's write function and
reads via the mode's read function.  Result: the command outcome, the new
session state, the packets written to the transport, and the unread rest of
the decoded input packets. -/
def Client.ExecCmd (mode : Mode) (st : ClientState) (pkts : List pkt) (c : Cmd) :
    Except CErr (List Nat) × ClientState × List pkt × List pkt :=
  let body := c.String
  if body.data.any (fun r => 0x80 ≤ r.toNat) then
    (.error .nonASCII, st, [], pkts)
  else
    let expectedID := st.reqID
    match mode with
    | .single =>
      let w := Client.writePkt st execCommand (bytesOfString body)
      let r := Client.readSingle expectedID pkts
      (r.1, w.2, [w.1], r.2)
    | .multi =>
      let w := Client.writeMulti st execCommand (bytesOfString body)
      let r := Client.readMulti expectedID pkts
      (r.1, w.2, w.1, r.2)

/-- Go: `Client.Exec` — creates a new `Cmd` from the string and calls
`ExecCmd` with it. -/
def Client.Exec (mode : Mode) (st : ClientState) (pkts : List pkt) (cmd : String) :
    Except CErr (List Nat) × ClientState × List pkt × List pkt :=
  Client.ExecCmd mode st pkts (NewCmd cmd)

/-- Concatenation of the bodies of a packet list, in order (the content of
the accumulation buffer after appending each packet's body). -/
def bodiesConcat : List pkt → List Nat
  | [] => []
  | p :: ps => p.body ++ bodiesConcat ps

/-- True iff the string's final character is whitespace. -/
def hasTrailingWS (s : String) : Bool :=
  match s.data.reverse.head? with
  | none => false
  | some ch => ch.isWhitespace

/-! ## Helper lemmas about the numeric encodings -/

theorem le4_length (v : Int) : (le4 v).length = 4 := rfl

theorem toInt32_of_range (v : Int) (h1 : -2147483648 ≤ v) (h2 : v < 2147483648) :
    toInt32 v = v := by
  simp only [toInt32]
  split <;> omega

theorem int32OfLE_le4 (v : Int) (h1 : -2147483648 ≤ v) (h2 : v < 2147483648) :
    int32OfLE (le4 v) = v := by
  simp only [le4, int32OfLE, List.getD_cons_zero, List.getD_cons_succ]
  split <;> omega

/-! ## Helper lemmas about the decode loop -/

/-- One-step unfolding of `payloadLoop`. -/
theorem payloadLoop_unfold (need fuel : Nat) (got bs : List Nat) :
    payloadLoop need fuel got bs =
      if got.length < need then
        match fuel with
        | 0 => none
        | Nat.succ f =>
          payloadLoop need f (got ++ bs.take (need - got.length))
            (bs.drop (need - got.length))
      else some (got, bs) := by
  rw [payloadLoop.eq_def]

theorem readFull_exact (xs ys : List Nat) (h : xs.length = 4) :
    readFull 4 (xs ++ ys) = Except.ok (xs, ys) := by
  have hne : (xs ++ ys).isEmpty = false := by
    cases xs with
    | nil => simp at h
    | cons a t => rfl
  have hle : 4 ≤ (xs ++ ys).length := by
    rw [List.length_append, h]; omega
  rw [readFull, if_neg (by omega), hne]
  simp only [Bool.false_eq_true, if_false, if_pos hle]
  rw [List.take_left' h, List.drop_left' h]

theorem payloadLoop_exact (n f : Nat) (bs rest : List Nat) (h : bs.length = n)
    (hn : 0 < n) :
    payloadLoop n (Nat.succ f) [] (bs ++ rest) = some (bs, rest) := by
  rw [payloadLoop_unfold]
  simp only [List.length_nil, Nat.sub_zero, List.nil_append, if_pos hn]
  rw [List.take_left' h, List.drop_left' h, payloadLoop_unfold]
  simp [h]

theorem payloadLoop_short_none (n : Nat) :
    ∀ (f : Nat) (got bs : List Nat), got.length + bs.length < n →
      payloadLoop n f got bs = none := by
  intro f
  induction f with
  | zero =>
    intro got bs h
    rw [payloadLoop_unfold]
    simp only [if_pos (show got.length < n by omega)]
  | succ f ih =>
    intro got bs h
    rw [payloadLoop_unfold]
    simp only [if_pos (show got.length < n by omega)]
    apply ih
    simp only [List.length_append, List.length_take, List.length_drop]
    omega

theorem payloadLoop_length (n : Nat) :
    ∀ (f : Nat) (got bs raw rest : List Nat),
      payloadLoop n f got bs = some (raw, rest) → got.length ≤ n →
      raw.length = n := by
  intro f
  induction f with
  | zero =>
    intro got bs raw rest h hle
    rw [payloadLoop_unfold] at h
    by_cases hlt : got.length < n
    · rw [if_pos hlt] at h; exact absurd h (by simp)
    · rw [if_neg hlt] at h
      simp only [Option.some.injEq, Prod.mk.injEq] at h
      obtain ⟨h1, h2⟩ := h
      subst h1
      omega
  | succ f ih =>
    intro got bs raw rest h hle
    rw [payloadLoop_unfold] at h
    by_cases hlt : got.length < n
    · rw [if_pos hlt] at h
      refine ih _ _ _ _ h ?_
      simp only [List.length_append, List.length_take]
      omega
    · rw [if_neg hlt] at h
      simp only [Option.some.injEq, Prod.mk.injEq] at h
      obtain ⟨h1, h2⟩ := h
      subst h1
      omega

/-- Decoding a whole well-formed frame: header of `sz`, `id`, `ty`, then the
raw payload of `sz - 8` bytes; the result only depends on the trailer
check. -/
theorem ReadFrom_frame (sz id ty : Int) (raw rest : List Nat) (f : Nat)
    (hsz1 : 10 ≤ sz) (hsz2 : sz < 2147483648)
    (hraw : (raw.length : Int) = sz - 8) :
    pkt.ReadFrom (Nat.succ f) (le4 sz ++ (le4 id ++ (le4 ty ++ (raw ++ rest)))) =
      (if raw.drop (raw.length - 2) = [0x00, 0x00] then
        some (.ok { Size := sz, ID := int32OfLE (le4 id), Ty := int32OfLE (le4 ty),
                    body := raw.take (raw.length - 2) })
      else some (.error (.malformed "invalid trailer"))) := by
  have hszr : int32OfLE (le4 sz) = sz := int32OfLE_le4 sz (by omega) hsz2
  have hn : (sz - 8).toNat = raw.length := by omega
  rw [pkt.ReadFrom]
  simp only [readFull_exact, le4_length, hszr, if_neg (show ¬sz < 10 by omega), hn,
    payloadLoop_exact raw.length f raw rest rfl (show 0 < raw.length by omega)]

/-- On a stream whose payload part is shorter than `sz - 8`, the decode
loop never returns, whatever the iteration bound: the Go loop tests the
stale `err` instead of `err2`, so the EOF from `r.Read` is discarded and
the loop spins forever. -/
theorem ReadFrom_spins (f : Nat) (sz id ty : Int) (tail : List Nat)
    (hsz1 : 10 ≤ sz) (hsz2 : sz < 2147483648)
    (hshort : (tail.length : Int) < sz - 8) :
    pkt.ReadFrom f (le4 sz ++ (le4 id ++ (le4 ty ++ tail))) = none := by
  have hszr : int32OfLE (le4 sz) = sz := int32OfLE_le4 sz (by omega) hsz2
  rw [pkt.ReadFrom]
  simp only [readFull_exact, le4_length, hszr, if_neg (show ¬sz < 10 by omega),
    payloadLoop_short_none (sz - 8).toNat f [] tail
      (show ([] : List Nat).length + tail.length < (sz - 8).toNat by simp; omega)]

/-- If the decode succeeds, the payload loop obtained exactly `Size - 8`
raw bytes. -/
theorem ReadFrom_ok_inv (fuel : Nat) (bs : List Nat) (p : pkt)
    (h : pkt.ReadFrom fuel bs = some (.ok p)) :
    10 ≤ p.Size ∧ (p.body.length : Int) = p.Size - 10 := by
  simp only [pkt.ReadFrom] at h
  split at h
  · exact absurd (Option.some.inj h) (by simp)
  next szb bs1 heq1 =>
    split at h
    · exact absurd (Option.some.inj h) (by simp)
    next hsz =>
      split at h
      · exact absurd (Option.some.inj h) (by simp)
      next idb bs2 heq2 =>
        split at h
        · exact absurd (Option.some.inj h) (by simp)
        next tyb bs3 heq3 =>
          split at h
          · exact absurd h (by simp)
          next raw rest4 hloop =>
            have hlen : raw.length = (int32OfLE szb - 8).toNat :=
              payloadLoop_length _ _ _ _ _ _ hloop (by simp)
            split at h
            next htr =>
              have hp := Except.ok.inj (Option.some.inj h)
              have hSize : p.Size = int32OfLE szb := by rw [← hp]
              have hbody : p.body = raw.take (raw.length - 2) := by rw [← hp]
              constructor
              · omega
              · rw [hbody]
                simp only [List.length_take]
                omega
            next htr => exact absurd (Option.some.inj h) (by simp)

/-- C2: the claim is right and the code is wrong.  The spec requires the
payload loop to stop and surface a transport error when the stream reports
EOF while payload bytes are still expected; the Go loop tests the stale
variable `err` (necessarily `nil` there) instead of `err2` returned by
`r.Read`, so such streams make `ReadFrom` loop forever.  Concretely, on the
12-byte stream `0a 00 00 00 | 00 00 00 00 | 00 00 00 00` followed by EOF
(the size field promises 2 payload bytes that never arrive), the decode
never produces any outcome, however many loop iterations it is granted —
in particular the EOF is never returned to the caller. -/
theorem C2_decode_eof_spins :
    ∀ fuel : Nat,
      pkt.ReadFrom fuel [10, 0, 0, 0, 0, 0, 0, 0, 0, 0, 0, 0] = none := by
  intro fuel
  have hrw : [10, 0, 0, 0, 0, 0, 0, 0, 0, 0, 0, 0] =
      le4 10 ++ (le4 0 ++ (le4 0 ++ ([] : List Nat))) := by decide
  rw [hrw]
  exact ReadFrom_spins fuel 10 0 0 [] (by norm_num) (by norm_num) (by norm_num)

/-- C3: encode-then-decode round-trip.  For every `int32`-ranged type and
id and every body byte sequence (embedded zero bytes included) whose
length keeps the size field in `int32` range, writing the packet with
`WriteTo` and decoding the produced bytes with `ReadFrom` (any iteration
bound suffices for the one read the byte stream needs) succeeds and yields
a packet with identical type, id, and body. -/
theorem C3_encode_decode_roundtrip (t id : Int) (body : List Nat) (fuel : Nat)
    (ht1 : -2147483648 ≤ t) (ht2 : t < 2147483648)
    (hid1 : -2147483648 ≤ id) (hid2 : id < 2147483648)
    (hlen : (body.length : Int) + 10 < 2147483648)
    (hbytes : ∀ b ∈ body, b < 256) :
    pkt.ReadFrom (Nat.succ fuel) ((newPkt t id body).WriteTo) =
      some (.ok (newPkt t id body)) := by
  have hsz : toInt32 ((body.length : Int) + 10) = (body.length : Int) + 10 :=
    toInt32_of_range _ (by omega) hlen
  have hW : (newPkt t id body).WriteTo =
      le4 ((body.length : Int) + 10) ++ (le4 id ++ (le4 t ++ ((body ++ [0x00, 0x00]) ++ []))) := by
    simp [pkt.WriteTo, newPkt, hsz, List.append_assoc]
  have hraw : ((body ++ [0x00, 0x00]).length : Int) = ((body.length : Int) + 10) - 8 := by
    simp [List.length_append]
    omega
  rw [hW, ReadFrom_frame _ id t _ [] fuel (by omega) (by omega) hraw]
  have hdrop : (body ++ [0x00, 0x00]).drop ((body ++ [0x00, 0x00]).length - 2) = [0x00, 0x00] := by
    rw [List.length_append]
    exact List.drop_left' (by simp)
  have htake : (body ++ [0x00, 0x00]).take ((body ++ [0x00, 0x00]).length - 2) = body := by
    rw [List.length_append]
    exact List.take_left' (by simp)
  rw [if_pos hdrop, htake, int32OfLE_le4 id hid1 hid2, int32OfLE_le4 t ht1 ht2]
  simp [newPkt, hsz]

/-- C3 witness: a concrete instance, type `0`, id `7`, body `"hi"`. -/
theorem C3_witness :
    pkt.ReadFrom 1 ((newPkt 0 7 [104, 105]).WriteTo) = some (.ok (newPkt 0 7 [104, 105])) :=
  C3_encode_decode_roundtrip 0 7 [104, 105] 0 (by decide) (by decide) (by decide)
    (by decide) (by decide) (by decide)

/-- C5: decode safety.  The Lean embedding of `ReadFrom` is a total
function — the Go code likewise never panics, the only index computation
`raw[len(raw)-2:]` being guarded by the `size >= 10` check.  Moreover:
(1) whenever the size field decodes below 10 the result is the
malformed-response error "size too small", for every stream supplying the
4 size bytes and every iteration bound;
(2) whenever the raw payload was obtained and its final two bytes are not
`0x00 0x00` the result is the malformed-response error "invalid trailer";
(3) every successful decode has `size >= 10` and exposes a body of exactly
`size - 10` bytes (the raw `size - 8` payload minus the stripped
terminator). -/
theorem C5_decode_safety :
    (∀ (fuel : Nat) (bs : List Nat), 4 ≤ bs.length → int32OfLE (bs.take 4) < 10 →
      pkt.ReadFrom fuel bs = some (.error (.malformed "size too small"))) ∧
    (∀ (f : Nat) (id ty : Int) (raw rest : List Nat), 2 ≤ raw.length →
      (raw.length : Int) + 8 < 2147483648 →
      raw.drop (raw.length - 2) ≠ [0x00, 0x00] →
      pkt.ReadFrom (Nat.succ f)
          (le4 ((raw.length : Int) + 8) ++ (le4 id ++ (le4 ty ++ (raw ++ rest)))) =
        some (.error (.malformed "invalid trailer"))) ∧
    (∀ (fuel : Nat) (bs : List Nat) (p : pkt), pkt.ReadFrom fuel bs = some (.ok p) →
      10 ≤ p.Size ∧ (p.body.length : Int) = p.Size - 10) := by
  refine ⟨?_, ?_, ReadFrom_ok_inv⟩
  · intro fuel bs hlen hsz
    have h4 : (bs.take 4).length = 4 := by
      rw [List.length_take]; omega
    conv_lhs => rw [(List.take_append_drop 4 bs).symm]
    rw [pkt.ReadFrom]
    simp only [readFull_exact _ _ h4, if_pos hsz]
  · intro f id ty raw rest h2 hr htr
    rw [ReadFrom_frame _ id ty raw rest f (by omega) (by omega) (by omega), if_neg htr]

/-- C5 witness: concrete instances of the three conjuncts — a size field
of 5, a frame whose trailer is `01 02`, and a successful decode of a
size-10 frame. -/
theorem C5_witness :
    pkt.ReadFrom 0 [5, 0, 0, 0] = some (.error (.malformed "size too small")) ∧
    pkt.ReadFrom 1 (le4 10 ++ (le4 0 ++ (le4 0 ++ ([1, 2] ++ [])))) =
      some (.error (.malformed "invalid trailer")) ∧
    (10 ≤ (pkt.mk 10 7 0 []).Size ∧
      ((pkt.mk 10 7 0 []).body.length : Int) = (pkt.mk 10 7 0 []).Size - 10) := by
  refine ⟨?_, ?_, ?_⟩
  · exact C5_decode_safety.1 0 [5, 0, 0, 0] (by decide) (by decide)
  · exact C5_decode_safety.2.1 0 0 0 [1, 2] [] (by decide) (by decide) (by decide)
  · exact C5_decode_safety.2.2 1 [10, 0, 0, 0, 7, 0, 0, 0, 0, 0, 0, 0, 0, 0]
      (pkt.mk 10 7 0 []) (by decide)

/-! ## Helper lemmas about the multi-packet reassembly loop -/

/-- Command-output packets (`responseValue` type, id = `expectedID`) are
consumed by appending their bodies to the buffer, leaving the counter
unchanged. -/
theorem readMultiAux_skipN (N : Int) :
    ∀ (A : List pkt) (buf : List Nat) (cnt : Nat) (rest : List pkt),
      (∀ p ∈ A, p.Ty = responseValue ∧ p.ID = N) →
      Client.readMultiAux N buf cnt (A ++ rest) =
        Client.readMultiAux N (buf ++ bodiesConcat A) cnt rest := by
  intro A
  induction A with
  | nil =>
    intro buf cnt rest h
    simp [bodiesConcat]
  | cons p A ih =>
    intro buf cnt rest h
    obtain ⟨hTy, hID⟩ := h p (by simp)
    rw [List.cons_append, Client.readMultiAux,
      if_neg (show ¬p.Ty ≠ responseValue by simp [hTy]), if_pos hID,
      ih (buf ++ p.body) cnt rest (fun q hq => h q (by simp [hq]))]
    simp [bodiesConcat, List.append_assoc]

/-- The first sentinel-id packet, with its mandatory empty body, only bumps
the counter. -/
theorem readMultiAux_sentinel1 (N : Int) (q : pkt) (buf : List Nat) (rest : List pkt)
    (hTy : q.Ty = responseValue) (hID : q.ID = N + 1) (hb : q.body = []) :
    Client.readMultiAux N buf 0 (q :: rest) = Client.readMultiAux N buf 1 rest := by
  rw [Client.readMultiAux,
    if_neg (show ¬q.Ty ≠ responseValue by simp [hTy]),
    if_neg (show ¬q.ID = N by omega), if_pos hID,
    if_pos (show 0 + 1 = 1 by rfl), if_neg (show ¬q.body ≠ [] by simp [hb])]

/-- The second sentinel-id packet, carrying the marker body, terminates the
loop with the accumulated buffer. -/
theorem readMultiAux_sentinel2 (N : Int) (q : pkt) (buf : List Nat) (rest : List pkt)
    (hTy : q.Ty = responseValue) (hID : q.ID = N + 1) (hb : q.body = responseBody) :
    Client.readMultiAux N buf 1 (q :: rest) = (.ok buf, rest) := by
  rw [Client.readMultiAux,
    if_neg (show ¬q.Ty ≠ responseValue by simp [hTy]),
    if_neg (show ¬q.ID = N by omega), if_pos hID,
    if_neg (show ¬1 + 1 = 1 by omega), if_pos (show 1 + 1 = 2 by rfl),
    if_neg (show ¬q.body ≠ responseBody by simp [hb])]

/-- A first sentinel-id packet with a non-empty body aborts the loop. -/
theorem readMultiAux_nonempty (N : Int) (q : pkt) (buf : List Nat) (rest : List pkt)
    (hTy : q.Ty = responseValue) (hID : q.ID = N + 1) (hb : q.body ≠ []) :
    Client.readMultiAux N buf 0 (q :: rest) =
      (.error (.malformed "non-empty body"), rest) := by
  rw [Client.readMultiAux,
    if_neg (show ¬q.Ty ≠ responseValue by simp [hTy]),
    if_neg (show ¬q.ID = N by omega), if_pos hID,
    if_pos (show 0 + 1 = 1 by rfl), if_pos hb]

/-- A packet whose id is neither `N` nor `N + 1` aborts the loop, whatever
the buffer and counter. -/
theorem readMultiAux_unexpected (N : Int) (q : pkt) (buf : List Nat) (cnt : Nat)
    (rest : List pkt) (hTy : q.Ty = responseValue) (h1 : q.ID ≠ N) (h2 : q.ID ≠ N + 1) :
    Client.readMultiAux N buf cnt (q :: rest) =
      (.error (.malformed ("unexpected packet id " ++ toString q.ID)), rest) := by
  rw [Client.readMultiAux,
    if_neg (show ¬q.Ty ≠ responseValue by simp [hTy]), if_neg h1, if_neg h2]

/-- C1: multi-packet reassembly.  For a request with correlation id `N`,
if the decoded response sequence consists of `responseValue`-typed packets
with id `N` (any number, in any arrangement around the first sentinel
packet), one empty-body sentinel packet with id `N + 1`, and a final
sentinel packet with id `N + 1` whose body is the marker
`{0x00, 0x01, 0x00, 0x00}`, then `readMulti` returns the concatenation of
the id-`N` bodies in arrival order. -/
theorem C1_readMulti_reassembly (N : Int) (A B rest : List pkt) (q1 q2 : pkt)
    (hA : ∀ p ∈ A, p.Ty = responseValue ∧ p.ID = N)
    (hB : ∀ p ∈ B, p.Ty = responseValue ∧ p.ID = N)
    (h1t : q1.Ty = responseValue) (h1i : q1.ID = N + 1) (h1b : q1.body = [])
    (h2t : q2.Ty = responseValue) (h2i : q2.ID = N + 1) (h2b : q2.body = responseBody) :
    Client.readMulti N (A ++ q1 :: (B ++ q2 :: rest)) =
      (.ok (bodiesConcat A ++ bodiesConcat B), rest) := by
  rw [Client.readMulti, readMultiAux_skipN N A [] 0 _ hA,
    readMultiAux_sentinel1 N q1 _ _ h1t h1i h1b,
    readMultiAux_skipN N B _ 1 _ hB,
    readMultiAux_sentinel2 N q2 _ _ h2t h2i h2b]
  simp

/-- C1 witness: bodies `"test "` then `"me"` assemble to `"test me"`. -/
theorem C1_witness :
    Client.readMulti 0
        [pkt.mk 15 0 0 (bytesOfString "test "), pkt.mk 12 0 0 (bytesOfString "me"),
         pkt.mk 10 1 0 [], pkt.mk 14 1 0 responseBody] =
      (.ok (bytesOfString "test me"), []) := by
  have h := C1_readMulti_reassembly 0
    [pkt.mk 15 0 0 (bytesOfString "test "), pkt.mk 12 0 0 (bytesOfString "me")] [] []
    (pkt.mk 10 1 0 []) (pkt.mk 14 1 0 responseBody)
    (by decide) (by decide) (by decide) (by decide) (by decide)
    (by decide) (by decide) (by decide)
  exact h.trans (by decide)

/-- C6: multi-packet error handling.  (1) If, after any number of
command-output packets, the first sentinel-id packet has a non-empty body,
`readMulti` fails with the malformed-response reason "non-empty body".
(2) A packet whose id is neither `N` nor `N + 1` (reached the same way)
fails with a malformed-response reason naming the unexpected id. -/
theorem C6_readMulti_malformed :
    (∀ (N : Int) (A : List pkt) (q : pkt) (rest : List pkt),
      (∀ p ∈ A, p.Ty = responseValue ∧ p.ID = N) →
      q.Ty = responseValue → q.ID = N + 1 → q.body ≠ [] →
      Client.readMulti N (A ++ q :: rest) =
        (.error (.malformed "non-empty body"), rest)) ∧
    (∀ (N : Int) (A : List pkt) (q : pkt) (rest : List pkt),
      (∀ p ∈ A, p.Ty = responseValue ∧ p.ID = N) →
      q.Ty = responseValue → q.ID ≠ N → q.ID ≠ N + 1 →
      Client.readMulti N (A ++ q :: rest) =
        (.error (.malformed ("unexpected packet id " ++ toString q.ID)), rest)) := by
  constructor
  · intro N A q rest hA hTy hID hb
    rw [Client.readMulti, readMultiAux_skipN N A [] 0 _ hA,
      readMultiAux_nonempty N q _ _ hTy hID hb]
  · intro N A q rest hA hTy h1 h2
    rw [Client.readMulti, readMultiAux_skipN N A [] 0 _ hA,
      readMultiAux_unexpected N q _ _ _ hTy h1 h2]

/-- C6 witness: a non-empty first sentinel body, and an unexpected id 5. -/
theorem C6_witness :
    Client.readMulti 0 [pkt.mk 10 0 0 [65], pkt.mk 11 1 0 [7]] =
      (.error (.malformed "non-empty body"), []) ∧
    Client.readMulti 0 [pkt.mk 10 0 0 [65], pkt.mk 10 5 0 []] =
      (.error (.malformed ("unexpected packet id " ++ toString (5 : Int))), []) := by
  constructor
  · exact C6_readMulti_malformed.1 0 [pkt.mk 10 0 0 [65]] (pkt.mk 11 1 0 [7]) []
      (by decide) (by decide) (by decide) (by decide)
  · exact C6_readMulti_malformed.2 0 [pkt.mk 10 0 0 [65]] (pkt.mk 10 5 0 []) []
      (by decide) (by decide) (by decide) (by decide)

/-- C10: in single-packet mode the response packet's type is never
inspected — `readSingle` returns the body of any packet whose id matches,
whatever its type — while multi-packet mode rejects every packet whose type
is not `responseValue`. -/
theorem C10_readSingle_ignores_type :
    (∀ (N : Int) (p : pkt) (rest : List pkt), p.ID = N →
      Client.readSingle N (p :: rest) = (.ok p.body, rest)) ∧
    (∀ (N : Int) (p : pkt) (rest : List pkt), p.Ty ≠ responseValue →
      Client.readMulti N (p :: rest) =
        (.error (.malformed "unexpected type"), rest)) := by
  constructor
  · intro N p rest hID
    rw [Client.readSingle, if_neg (show ¬p.ID ≠ N by simp [hID])]
  · intro N p rest hTy
    rw [Client.readMulti, Client.readMultiAux, if_pos hTy]

/-- C10 witness: a packet of type 3 (`auth`) with matching id 4 — accepted
by `readSingle`, rejected by `readMulti`. -/
theorem C10_witness :
    Client.readSingle 4 [pkt.mk 10 4 3 [1]] = (.ok [1], []) ∧
    Client.readMulti 4 [pkt.mk 10 4 3 [1]] =
      (.error (.malformed "unexpected type"), []) := by
  constructor
  · exact (C10_readSingle_ignores_type.1 4 (pkt.mk 10 4 3 [1]) [] (by decide)).trans
      (by decide)
  · exact C10_readSingle_ignores_type.2 4 (pkt.mk 10 4 3 [1]) [] (by decide)

/-- C4: the handshake state machine, for any configured non-empty password.
It accepts the official echo-then-result sequence
`[responseValue(id=0), authResponse(id=0)]` and the echo-less variant
`[authResponse(id=0)]`; it fails with the authentication-failure error when
the first packet's id is nonzero, when the second packet after a
`responseValue` echo has a nonzero id or a non-`authResponse` type, and
when the first packet's type is neither `responseValue` nor
`authResponse`. -/
theorem C4_auth_state_machine (pwd : String) (hpwd : pwd ≠ "") :
    (∀ (p q : pkt) (rest : List pkt), p.ID = 0 → p.Ty = responseValue →
      q.ID = 0 → q.Ty = authResponse →
      Client.auth pwd (p :: q :: rest) = .ok ()) ∧
    (∀ (p : pkt) (rest : List pkt), p.ID = 0 → p.Ty = authResponse →
      Client.auth pwd (p :: rest) = .ok ()) ∧
    (∀ (p : pkt) (rest : List pkt), p.ID ≠ 0 →
      Client.auth pwd (p :: rest) = .error .authFailure) ∧
    (∀ (p q : pkt) (rest : List pkt), p.ID = 0 → p.Ty = responseValue →
      (q.ID ≠ 0 ∨ q.Ty ≠ authResponse) →
      Client.auth pwd (p :: q :: rest) = .error .authFailure) ∧
    (∀ (p : pkt) (rest : List pkt), p.ID = 0 → p.Ty ≠ responseValue →
      p.Ty ≠ authResponse →
      Client.auth pwd (p :: rest) = .error .authFailure) := by
  refine ⟨?_, ?_, ?_, ?_, ?_⟩
  · intro p q rest h1 h2 h3 h4
    simp [Client.auth, hpwd, h1, h2, h3, h4]
  · intro p rest h1 h2
    simp [Client.auth, hpwd, h1, h2, responseValue, authResponse]
  · intro p rest h1
    simp [Client.auth, hpwd, h1]
  · intro p q rest h1 h2 h3
    rcases h3 with h3 | h3 <;> simp [Client.auth, hpwd, h1, h2, h3]
  · intro p rest h1 h2 h3
    simp [Client.auth, hpwd, h1, h2, h3]

/-- C4 witness: password `"secret"`, with the five packet shapes
instantiated concretely (ids 0/1, types 0, 2, 5). -/
theorem C4_witness :
    Client.auth "secret" [pkt.mk 10 0 0 [], pkt.mk 10 0 2 []] = .ok () ∧
    Client.auth "secret" [pkt.mk 10 0 2 []] = .ok () ∧
    Client.auth "secret" [pkt.mk 10 1 2 []] = .error .authFailure ∧
    Client.auth "secret" [pkt.mk 10 0 0 [], pkt.mk 10 0 3 []] = .error .authFailure ∧
    Client.auth "secret" [pkt.mk 10 0 5 []] = .error .authFailure := by
  have h := C4_auth_state_machine "secret" (by decide)
  refine ⟨?_, ?_, ?_, ?_, ?_⟩
  · exact h.1 (pkt.mk 10 0 0 []) (pkt.mk 10 0 2 []) [] (by decide) (by decide)
      (by decide) (by decide)
  · exact h.2.1 (pkt.mk 10 0 2 []) [] (by decide) (by decide)
  · exact h.2.2.1 (pkt.mk 10 1 2 []) [] (by decide)
  · exact h.2.2.2.1 (pkt.mk 10 0 0 []) (pkt.mk 10 0 3 []) [] (by decide) (by decide)
      (Or.inr (by decide))
  · exact h.2.2.2.2 (pkt.mk 10 0 5 []) [] (by decide) (by decide) (by decide)

/-- The non-ASCII guard of `ExecCmd`: a rendered command body containing a
code point at or above `0x80` is rejected before any packet is written —
the session state, the transport, and the input stream are untouched. -/
theorem ExecCmd_nonascii (mode : Mode) (st : ClientState) (pkts : List pkt) (c : Cmd)
    (h : ∃ r ∈ (Cmd.String c).data, 0x80 ≤ r.toNat) :
    Client.ExecCmd mode st pkts c = (.error .nonASCII, st, [], pkts) := by
  have hguard : (Cmd.String c).data.any (fun r => 0x80 ≤ r.toNat) = true := by
    rw [List.any_eq_true]
    obtain ⟨r, hr, hge⟩ := h
    exact ⟨r, hr, by simpa using hge⟩
  simp [Client.ExecCmd, hguard]

/-- C7: `Exec` and `ExecCmd` reject every command string containing a
character with code point at or above `0x80` before any write: zero
packets (hence zero bytes) reach the transport and the request-id counter
is unchanged. -/
theorem C7_nonascii_guard :
    (∀ (mode : Mode) (st : ClientState) (pkts : List pkt) (c : Cmd),
      (∃ r ∈ (Cmd.String c).data, 0x80 ≤ r.toNat) →
      Client.ExecCmd mode st pkts c = (.error .nonASCII, st, [], pkts)) ∧
    (∀ (mode : Mode) (st : ClientState) (pkts : List pkt) (s : String),
      (∃ r ∈ (Cmd.String (NewCmd s)).data, 0x80 ≤ r.toNat) →
      Client.Exec mode st pkts s = (.error .nonASCII, st, [], pkts)) :=
  ⟨ExecCmd_nonascii, fun mode st pkts s h => ExecCmd_nonascii mode st pkts (NewCmd s) h⟩

/-- C7 witness: the command `"écho"` (`é` is U+00E9), in multi-packet mode
with counter 0 — rejected with no write and no state change. -/
theorem C7_witness :
    Client.ExecCmd .multi ⟨0⟩ [] (NewCmd "écho") = (.error .nonASCII, ⟨0⟩, [], []) ∧
    Client.Exec .multi ⟨0⟩ [] "écho" = (.error .nonASCII, ⟨0⟩, [], []) :=
  ⟨C7_nonascii_guard.1 .multi ⟨0⟩ [] (NewCmd "écho") (by decide),
   C7_nonascii_guard.2 .multi ⟨0⟩ [] "écho" (by decide)⟩

/-- C8: single-packet mode.  An executed request writes exactly one packet
carrying the current id, increments the id counter by exactly one (as an
`int32`; literally `+ 1` while the counter stays in `int32` range), decodes
exactly one response packet (the head of the input, leaving the rest), and
returns its body iff its correlation id equals the request id — any
mismatch is a malformed-response error naming the id. -/
theorem C8_single_mode (st : ClientState) (c : Cmd) (p : pkt) (rest : List pkt)
    (hascii : (Cmd.String c).data.any (fun r => 0x80 ≤ r.toNat) = false) :
    Client.ExecCmd .single st (p :: rest) c =
      ((if p.ID = st.reqID then .ok p.body
        else .error (.malformed ("unexpected packet id " ++ toString p.ID))),
       ⟨toInt32 (st.reqID + 1)⟩,
       [newPkt execCommand st.reqID (bytesOfString (Cmd.String c))],
       rest) ∧
    (-2147483648 ≤ st.reqID → st.reqID + 1 < 2147483648 →
      (Client.ExecCmd .single st (p :: rest) c).2.1.reqID = st.reqID + 1) := by
  constructor
  · by_cases hid : p.ID = st.reqID <;>
      simp [Client.ExecCmd, hascii, Client.writePkt, Client.readSingle, hid]
  · intro hg1 hg2
    simp only [Client.ExecCmd, hascii, Bool.false_eq_true, if_false,
      Client.writePkt, Client.readSingle]
    exact toInt32_of_range _ (by omega) (by omega)

/-- C8 witness: counter 0, command `"status"`, response packet with the
matching id 0 and body `[65]`. -/
theorem C8_witness :
    Client.ExecCmd .single ⟨0⟩ [pkt.mk 10 0 0 [65]] (NewCmd "status") =
      (.ok [65], ⟨1⟩, [newPkt execCommand 0 (bytesOfString "status")], []) ∧
    (Client.ExecCmd .single (⟨0⟩ : ClientState) [pkt.mk 10 0 0 [65]]
        (NewCmd "status")).2.1.reqID = 0 + 1 := by
  have h := C8_single_mode ⟨0⟩ (NewCmd "status") (pkt.mk 10 0 0 [65]) [] (by decide)
  exact ⟨h.1.trans (by decide), h.2 (by decide) (by decide)⟩

/-! ## Helper lemmas about the command rendering -/

/-- TrimSuffix undoes the newline that Sprintln appended. -/
theorem trimSuffix_newline (xs : List Char) :
    trimSuffix (xs ++ ['\n']) ['\n'] = xs := by
  have hsuf : (['\n'] : List Char).isSuffixOf (xs ++ ['\n']) = true := by
    simp [List.isSuffixOf, List.isPrefixOf]
  rw [trimSuffix, if_pos hsuf]
  simp only [List.length_append, List.length_cons, List.length_nil]
  exact List.take_left' (by omega)

/-- The rendered command is exactly the space-join of the verb and the
argument renderings: the trailing newline is always removed. -/
theorem Cmd.String_data (c : Cmd) :
    (Cmd.String c).data = sepJoin ((c.cmd :: c.args).map String.data) := by
  simp [Cmd.String, sprintln, trimSuffix_newline]

/-- sepJoin over a list ending in `w` ends in `w` (preceded by a space
when anything comes before it). -/
theorem sepJoin_append_single (parts : List (List Char)) (w : List Char)
    (hp : parts ≠ []) :
    sepJoin (parts ++ [w]) = sepJoin parts ++ ' ' :: w := by
  induction parts with
  | nil => exact absurd rfl hp
  | cons p parts ih =>
    cases parts with
    | nil => rfl
    | cons p2 parts2 =>
      have ih2 := ih (by simp)
      rw [List.cons_append] at ih2
      rw [List.cons_append, List.cons_append, sepJoin, ih2, sepJoin]
      simp [List.append_assoc]

/-- The last character of a `sepJoin` ending in a non-empty word is the
last character of that word. -/
theorem sepJoin_last (parts : List (List Char)) (w : List Char) (hw : w ≠ []) :
    (sepJoin (parts ++ [w])).reverse.head? = w.reverse.head? := by
  cases parts with
  | nil => rfl
  | cons p parts =>
    rw [sepJoin_append_single (p :: parts) w (by simp)]
    obtain ⟨a, t, ht⟩ := List.exists_cons_of_ne_nil (by simpa using hw :
      w.reverse ≠ [])
    simp [List.reverse_append, ht]

/-- C9 (amended): `Cmd.String` renders the verb and the argument values
joined by single spaces, with the newline appended by `Sprintln` always
removed; the result has no trailing whitespace provided the last rendered
item (the verb itself when there are no arguments) is non-empty and does
not itself end in whitespace.  (As stated, with "no trailing whitespace"
unconditional, the claim fails: an empty final argument — or one ending in
whitespace — survives into the output, see the counterexample.) -/
theorem C9_cmd_string_render (c : Cmd) :
    (Cmd.String c).data = sepJoin ((c.cmd :: c.args).map String.data) ∧
    (∀ L : String, (c.cmd :: c.args).getLast? = some L → L.data ≠ [] →
      hasTrailingWS L = false → hasTrailingWS (Cmd.String c) = false) := by
  refine ⟨Cmd.String_data c, ?_⟩
  intro L hL hdne hws
  obtain ⟨init, hinit⟩ := List.getLast?_eq_some_iff.mp hL
  have hparts : (c.cmd :: c.args).map String.data =
      init.map String.data ++ [L.data] := by
    rw [hinit, List.map_append, List.map_cons, List.map_nil]
  rw [hasTrailingWS, Cmd.String_data c, hparts, sepJoin_last _ _ hdne]
  rw [hasTrailingWS] at hws
  exact hws

/-- C9 witness: `NewCmd("echo").WithArgs("test me")` renders to the
space-join `"echo test me"`, and with the well-formed final argument the
result indeed has no trailing whitespace. -/
theorem C9_witness :
    (Cmd.String ((NewCmd "echo").WithArgs ["test me"])).data =
      sepJoin ((((NewCmd "echo").WithArgs ["test me"]).cmd ::
        ((NewCmd "echo").WithArgs ["test me"]).args).map String.data) ∧
    hasTrailingWS (Cmd.String ((NewCmd "echo").WithArgs ["test me"])) = false := by
  have h := C9_cmd_string_render ((NewCmd "echo").WithArgs ["test me"])
  exact ⟨h.1, h.2 "test me" (by decide) (by decide) (by decide)⟩

/-- C9 counterexample: with the empty string as (rendered) argument value,
`NewCmd("status").WithArgs("")` renders to `"status "` — the verb, a
separating space, and the empty argument — which ends in whitespace,
refuting the unconditional "no trailing whitespace" part of the claim. -/
theorem C9_counterexample :
    Cmd.String ((NewCmd "status").WithArgs [""]) = "status " ∧
    hasTrailingWS (Cmd.String ((NewCmd "status").WithArgs [""])) = true := by
  constructor
  · decide
  · decide

end Source
